import Mathlib

/-!
# woki: container log scraper (`main.go`)

A shallow embedding of `func main` of `main.go`.  The program talks to the
Docker daemon and to the clock; every answer of the outside world is an
explicit input (`World`), and everything the program does to the outside
world is an explicit output (`Run.trace`, a list of `Event`s, together with
the way the process ends, `Run.status`).

The lines `main` prints with `fmt` are taken as written. A standard output
that is a pipe without a reader is met where the logs are written, in
`io.Copy`: see `CopyBehaviour.killed`.
-/

namespace Woki

/-! ## Data model -/

/-- The fields of `types.Container` that `main` reads. -/
structure Container where
  ID : String
  Names : List String
  State : String
deriving DecidableEq

/-- The fields of `types.ContainerListOptions` that `main` sets
(every other field keeps its zero value). -/
structure ContainerListOptions where
  All : Bool
deriving DecidableEq

/-- The fields of `types.ContainerLogsOptions` that `main` sets
(`Since`, `Until`, `Follow`, `Details` keep their zero value). -/
structure ContainerLogsOptions where
  ShowStdout : Bool
  ShowStderr : Bool
  Timestamps : Bool
  Tail : String
deriving DecidableEq

/-- The error that `io.Copy(os.Stdout, logs)` can return: the first error met
while reading from the log stream (other than end-of-stream) or while
writing to standard output.
* `read text`: the error of the stream, `text` being its `err.Error()`;
* `write reason`: the write system call on standard output failed with
  `reason` (for instance `no space left on device`) and the call returned. -/
inductive CopyError where
  | read (text : String)
  | write (reason : String)
deriving DecidableEq

/-- Text of the error, as printed by the verb `%v`. `os.Stdout` wraps the error
of a write in a `*PathError` with operation `write` and path `/dev/stdout`. -/
def CopyError.text : CopyError → String
  | .read t => t
  | .write reason => "write /dev/stdout: " ++ reason

/-- What `io.Copy(os.Stdout, logs)` does on one log stream.
* `returns written err elapsed`: the call returns after forwarding `written`;
  `err = none` when the stream reached end-of-stream; `elapsed` is the time in
  nanoseconds between `context.WithTimeout` (line 66) and the `select`
  (line 82).
* `never written`: the stream neither ends nor fails, so the call does not
  return (`written` is what was forwarded before it stalled).
* `killed written`: standard output is a pipe whose reader has gone; the write
  fails with `EPIPE` and the Go run time raises `SIGPIPE`, which ends the
  process inside the call (`written` is what was forwarded before). -/
inductive CopyBehaviour where
  | returns (written : String) (err : Option CopyError) (elapsed : Nat)
  | never (written : String)
  | killed (written : String)
deriving DecidableEq

/-- The `io.ReadCloser` returned by a successful `cli.ContainerLogs`. -/
structure LogStream where
  copy : CopyBehaviour
deriving DecidableEq

/-- The answers of the outside world.
* `newClient`: `none` when `client.NewClientWithOpts` succeeds, else the error text;
* `containerList`: result of `cli.ContainerList`;
* `containerLogs k id opts`: result of the `cli.ContainerLogs` call made in loop
  iteration `k` (the position of the container in the list). -/
structure World where
  newClient : Option String
  containerList : ContainerListOptions → Except String (List Container)
  containerLogs : Nat → String → ContainerLogsOptions → Except String LogStream

/-- The print statements of `main`, one constructor per call site. -/
inductive Msg where
  /-- Line 19. -/
  | errClient (err : String)
  /-- Line 27. -/
  | errListing (err : String)
  /-- Line 33. -/
  | noContainers
  /-- Line 37. -/
  | header
  /-- Line 38. -/
  | found (n : Nat)
  /-- Line 48. -/
  | banner (name : String) (shownId : String)
  /-- Line 61. -/
  | errFetching (id : String) (err : String)
  /-- Line 70. -/
  | recentLogs
  /-- Line 75. -/
  | errReading (err : String)
  /-- Line 79. -/
  | separator
  /-- Line 85. -/
  | timeout
  /-- Line 91. -/
  | completed
deriving DecidableEq

/-- The text each print statement writes to standard output. -/
def Msg.render : Msg → String
  | .errClient err => "Error creating Docker client: " ++ err ++ "\n"
  | .errListing err => "Error listing containers: " ++ err ++ "\n"
  | .noContainers => "No containers found\n"
  | .header => "=== woki - Simple Container Log Scraper ===\n"
  | .found n => "Found " ++ toString n ++ " containers\n\n"
  | .banner name shownId => "Container: " ++ name ++ " (ID: " ++ shownId ++ ")\n"
  | .errFetching id err => "Error fetching logs for container " ++ id ++ ": " ++ err ++ "\n"
  | .recentLogs => "--- Recent Logs ---\n"
  | .errReading err => "Error reading logs: " ++ err ++ "\n"
  | .separator => "\n--------------------------------\n"
  | .timeout => "Timeout reached when reading logs\n"
  | .completed => "Log scraping completed\n"

/-- What the program does to the outside world.  A stream handle is named by
the loop iteration that opened it. -/
inductive Event where
  /-- `fmt.Printf` / `fmt.Println`. -/
  | stdout (m : Msg)
  /-- `client.NewClientWithOpts(client.FromEnv)`. -/
  | newClient
  /-- `cli.ContainerList(ctx, opts)`. -/
  | containerList (opts : ContainerListOptions)
  /-- `cli.ContainerLogs(ctx, id, opts)` and the handle it returned, if any. -/
  | containerLogs (id : String) (opts : ContainerLogsOptions) (handle : Option Nat)
  /-- `io.Copy(os.Stdout, logs)`: the bytes forwarded to standard output. -/
  | copy (handle : Nat) (written : String)
  /-- `logs.Close()`. -/
  | close (handle : Nat)
  /-- The deferred `cancel()` of the timeout context of one iteration. -/
  | cancel (handle : Nat)
  /-- The deferred `cli.Close()`. -/
  | cliClose
deriving DecidableEq

/-- How control leaves one loop iteration (or the whole loop). -/
inductive Flow where
  /-- The iteration ended (fell through or `continue`). -/
  | next
  /-- A run-time panic (index out of range). -/
  | panicked
  /-- A call that never returns. -/
  | blocked
  /-- The process is killed by `SIGPIPE`. -/
  | killed
deriving DecidableEq

/-- How the process ends. -/
inductive Status where
  /-- `main` returned. -/
  | returned
  /-- `os.Exit(code)`. -/
  | exited (code : Nat)
  /-- Unrecovered run-time panic. -/
  | panicked
  /-- The process hangs in a call that never returns. -/
  | blocked
  /-- The process is killed by `SIGPIPE` on a write to a broken pipe. -/
  | killed
deriving DecidableEq

/-- Exit status of the process, as a shell reports it: 0 on return from `main`,
the argument of `os.Exit`, 2 for an unrecovered panic (Go run time), 141 for
a process killed by `SIGPIPE` (128 + 13), none while it hangs. -/
def Status.exitCode : Status → Option Nat
  | .returned => some 0
  | .exited code => some code
  | .panicked => some 2
  | .blocked => none
  | .killed => some 141

/-- Outcome of one loop iteration: the events in program order, the calls
registered with `defer` (most recent first), and how control leaves. -/
structure Step where
  events : List Event
  deferred : List Event
  flow : Flow
deriving DecidableEq

/-- A whole run of `main`. -/
structure Run where
  trace : List Event
  status : Status
deriving DecidableEq

/-! ## The program -/

/-- `time.Second`, in nanoseconds. -/
def second : Nat := 1000000000

/-- The duration passed to `context.WithTimeout` (line 66): `2*time.Second`. -/
def logTimeout : Nat := 2 * second

/-- The error of a context (`ctx.Err()`), when it is done. -/
inductive CtxErr where
  | canceled
  | deadlineExceeded
deriving DecidableEq

/-- State of `logCtx` at the `select` of lines 82-88, `elapsed` nanoseconds
after it was created: its parent is the background context and its `cancel`
is only deferred, so it is done exactly when the deadline has passed. -/
def logCtxErr (elapsed : Nat) : Option CtxErr :=
  if logTimeout ≤ elapsed then some .deadlineExceeded else none

/-- Lines 82-88: the non-blocking `select` on `logCtx.Done()`. -/
def selectDone (elapsed : Nat) : List Event :=
  match logCtxErr elapsed with
  | some err => if err = .deadlineExceeded then [.stdout .timeout] else []
  | none => []

/-- The verb `%.Ns`: at most the first `n` characters of the string. -/
def truncate (n : Nat) (s : String) : String := ⟨s.data.take n⟩

/-- Lines 51-56. -/
def options : ContainerLogsOptions :=
  { ShowStdout := true, ShowStderr := true, Timestamps := true, Tail := "10" }

/-- Lines 73-76: `io.Copy` returned; print its error, if any. -/
def reportCopy : Option CopyError → List Event
  | none => []
  | some err => [.stdout (.errReading err.text)]

/-- Lines 42-88: the body of the loop, for the container at position `k`. -/
def body (w : World) (k : Nat) (container : Container) : Step :=
  if container.State != "running" then
    ⟨[], [], .next⟩
  else
    match container.Names with
    | [] => ⟨[], [], .panicked⟩
    | name :: _ =>
      let banner := Event.stdout (.banner name (truncate 12 container.ID))
      match w.containerLogs k container.ID options with
      | .error err =>
        ⟨[banner, .containerLogs container.ID options none,
          .stdout (.errFetching container.ID err)], [], .next⟩
      | .ok logs =>
        let opened := [banner, .containerLogs container.ID options (some k),
          .stdout .recentLogs]
        match logs.copy with
        | .never written =>
          ⟨opened ++ [.copy k written], [.cancel k], .blocked⟩
        | .killed written =>
          ⟨opened ++ [.copy k written], [.cancel k], .killed⟩
        | .returns written err elapsed =>
          ⟨opened ++ [.copy k written] ++ reportCopy err
              ++ [.close k, .stdout .separator] ++ selectDone elapsed,
            [.cancel k], .next⟩

/-- Lines 41-89: the loop over the containers, starting at position `k`. -/
def loop (w : World) (k : Nat) : List Container → Step
  | [] => ⟨[], [], .next⟩
  | container :: rest =>
    let s := body w k container
    match s.flow with
    | .next =>
      let r := loop w (k + 1) rest
      ⟨s.events ++ r.events, r.deferred ++ s.deferred, r.flow⟩
    | _ => s

/-- Lines 14-92: `func main`. Deferred calls run when `main` returns and
when it panics; they do not run on `os.Exit`, nor when the process hangs or
is killed. -/
def main (w : World) : Run :=
  match w.newClient with
  | some err => ⟨[.newClient, .stdout (.errClient err)], .exited 1⟩
  | none =>
    match w.containerList { All := true } with
    | .error err =>
      ⟨[.newClient, .containerList { All := true }, .stdout (.errListing err)], .exited 1⟩
    | .ok containers =>
      if containers.length = 0 then
        ⟨[.newClient, .containerList { All := true }, .stdout .noContainers, .cliClose],
          .returned⟩
      else
        let start := [Event.newClient, .containerList { All := true }, .stdout .header,
          .stdout (.found containers.length)]
        let r := loop w 0 containers
        match r.flow with
        | .next =>
          ⟨start ++ r.events ++ [.stdout .completed] ++ r.deferred ++ [.cliClose], .returned⟩
        | .panicked => ⟨start ++ r.events ++ r.deferred ++ [.cliClose], .panicked⟩
        | .blocked => ⟨start ++ r.events, .blocked⟩
        | .killed => ⟨start ++ r.events, .killed⟩

/-! ## Observations on a trace -/

/-- The container entries of the report: name and shown identifier of every
`Container: <name> (ID: <id>)` line, in order. -/
def entries (t : List Event) : List (String × String) :=
  t.filterMap fun e =>
    match e with
    | .stdout (.banner name shownId) => some (name, shownId)
    | _ => none

/-- The arguments of every `cli.ContainerLogs` call, in order. -/
def fetches (t : List Event) : List (String × ContainerLogsOptions) :=
  t.filterMap fun e =>
    match e with
    | .containerLogs id opts _ => some (id, opts)
    | _ => none

/-- The messages printed to standard output, in order. -/
def messages (t : List Event) : List Msg :=
  t.filterMap fun e =>
    match e with
    | .stdout m => some m
    | _ => none

/-- Everything written to standard output, as text. -/
def output : List Event → String
  | [] => ""
  | .stdout m :: rest => m.render ++ output rest
  | .copy _ written :: rest => written ++ output rest
  | _ :: rest => output rest

/-- What happens to a stream handle. -/
inductive HandleEvent where
  | opened (handle : Nat)
  | closed (handle : Nat)
deriving DecidableEq

/-- The opening and closing of stream handles, in order. A failed
`cli.ContainerLogs` yields no handle. -/
def handleEvents (t : List Event) : List HandleEvent :=
  t.filterMap fun e =>
    match e with
    | .containerLogs _ _ (some h) => some (.opened h)
    | .close h => some (.closed h)
    | _ => none

/-- The handles obtained from `cli.ContainerLogs`, in order. -/
def openedHandles (t : List Event) : List Nat :=
  t.filterMap fun e =>
    match e with
    | .containerLogs _ _ (some h) => some h
    | _ => none

/-- A container in state `running` (line 43). -/
def isRunning (c : Container) : Bool := c.State == "running"

/-- The running containers of a list, in list order. -/
def running (cs : List Container) : List Container := cs.filter isRunning

/-- Every copy on a stream the world hands out returns. -/
def World.copiesReturn (w : World) : Prop :=
  ∀ k id opts logs, w.containerLogs k id opts = .ok logs →
    ∃ written err elapsed, logs.copy = .returns written err elapsed

/-- No write to standard output is killed by `SIGPIPE`: no copy on a stream the world
hands out is (the lines printed with `fmt` are taken as written). -/
def World.noCopyKilled (w : World) : Prop :=
  ∀ k id opts logs written, w.containerLogs k id opts = .ok logs → logs.copy ≠ .killed written

/-- The format string of each print statement (for `fmt.Println`, the line it prints). -/
def Msg.format : Msg → String
  | .errClient _ => "Error creating Docker client: %v\n"
  | .errListing _ => "Error listing containers: %v\n"
  | .noContainers => "No containers found\n"
  | .header => "=== woki - Simple Container Log Scraper ===\n"
  | .found _ => "Found %d containers\n\n"
  | .banner _ _ => "Container: %s (ID: %.12s)\n"
  | .errFetching _ _ => "Error fetching logs for container %s: %v\n"
  | .recentLogs => "--- Recent Logs ---\n"
  | .errReading _ => "Error reading logs: %v\n"
  | .separator => "\n--------------------------------\n"
  | .timeout => "Timeout reached when reading logs\n"
  | .completed => "Log scraping completed\n"

/-- Every running container of the list has at least one name. -/
def allNamed (cs : List Container) : Prop :=
  ∀ c ∈ cs, isRunning c = true → c.Names ≠ []

/-- The events of `main` outside the loop body: the two client calls, the
fixed lines around the report, and the deferred calls. -/
def outsideLoop : Event → Prop
  | .newClient => True
  | .containerList _ => True
  | .cliClose => True
  | .cancel _ => True
  | .stdout m => m = .header ∨ (∃ n, m = .found n) ∨ m = .noContainers ∨ m = .completed
  | _ => False

/-- The five ways through the loop body. -/
inductive BodyCase (w : World) (k : Nat) (c : Container) : Prop where
  | skipped (h : isRunning c = false) (hb : body w k c = ⟨[], [], .next⟩)
  | nameless (h : isRunning c = true) (hn : c.Names = [])
      (hb : body w k c = ⟨[], [], .panicked⟩)
  | openError (name : String) (rest : List String) (err : String) (h : isRunning c = true)
      (hn : c.Names = name :: rest) (ho : w.containerLogs k c.ID options = .error err)
      (hb : body w k c = ⟨[.stdout (.banner name (truncate 12 c.ID)),
        .containerLogs c.ID options none, .stdout (.errFetching c.ID err)], [], .next⟩)
  | never (name : String) (rest : List String) (logs : LogStream) (written : String)
      (h : isRunning c = true) (hn : c.Names = name :: rest)
      (ho : w.containerLogs k c.ID options = .ok logs) (hc : logs.copy = .never written)
      (hb : body w k c = ⟨[.stdout (.banner name (truncate 12 c.ID)),
        .containerLogs c.ID options (some k), .stdout .recentLogs, .copy k written],
        [.cancel k], .blocked⟩)
  | killed (name : String) (rest : List String) (logs : LogStream) (written : String)
      (h : isRunning c = true) (hn : c.Names = name :: rest)
      (ho : w.containerLogs k c.ID options = .ok logs) (hc : logs.copy = .killed written)
      (hb : body w k c = ⟨[.stdout (.banner name (truncate 12 c.ID)),
        .containerLogs c.ID options (some k), .stdout .recentLogs, .copy k written],
        [.cancel k], .killed⟩)
  | returns (name : String) (rest : List String) (logs : LogStream) (written : String)
      (err : Option CopyError) (elapsed : Nat)
      (h : isRunning c = true) (hn : c.Names = name :: rest)
      (ho : w.containerLogs k c.ID options = .ok logs)
      (hc : logs.copy = .returns written err elapsed)
      (hb : body w k c = ⟨[.stdout (.banner name (truncate 12 c.ID)),
        .containerLogs c.ID options (some k), .stdout .recentLogs, .copy k written]
        ++ reportCopy err ++ [.close k, .stdout .separator] ++ selectDone elapsed,
        [.cancel k], .next⟩)

/-! ## Sample inputs -/

/-- Three containers: one running with a long identifier and two names, one
exited, one running. -/
def sampleContainers : List Container :=
  [⟨"0123456789abcdef0123", ["/web", "/alias"], "running"⟩,
   ⟨"1111", ["/db"], "exited"⟩,
   ⟨"2222", ["/cache"], "running"⟩]

/-- The first fetch completes in 50 ms, every other one fails to open. -/
def sampleWorld : World :=
  { newClient := none
    containerList := fun _ => .ok sampleContainers
    containerLogs := fun k _ _ =>
      if k = 0 then .ok ⟨.returns "line\n" none 50000000⟩ else .error "no such container" }

/-- A single running container without a name. -/
def namelessWorld : World :=
  { newClient := none
    containerList := fun _ => .ok [⟨"c0ffee", [], "running"⟩]
    containerLogs := fun _ _ _ => .ok ⟨.returns "" none 0⟩ }

/-- A running container without a name, followed by a running container with one. -/
def namelessFirstWorld : World :=
  { newClient := none
    containerList := fun _ =>
      .ok [⟨"aaaa", [], "running"⟩, ⟨"bbbb", ["/b"], "running"⟩]
    containerLogs := fun _ _ _ => .ok ⟨.returns "" none 0⟩ }

/-- Two running containers; the log stream of the first one never ends and never fails. -/
def stalledWorld : World :=
  { newClient := none
    containerList := fun _ =>
      .ok [⟨"aaaa", ["/a"], "running"⟩, ⟨"bbbb", ["/b"], "running"⟩]
    containerLogs := fun k _ _ =>
      if k = 0 then .ok ⟨.never ""⟩ else .ok ⟨.returns "line\n" none 50000000⟩ }

/-- Two running containers; standard output is a pipe whose reader goes away while the
logs of the first one are copied. -/
def brokenPipeWorld : World :=
  { newClient := none
    containerList := fun _ =>
      .ok [⟨"aaaa", ["/a"], "running"⟩, ⟨"bbbb", ["/b"], "running"⟩]
    containerLogs := fun k _ _ =>
      if k = 0 then .ok ⟨.killed "line\n"⟩ else .ok ⟨.returns "line\n" none 50000000⟩ }

/-- One running container whose log stream delivers one line and then stalls. -/
def stalledAfterOutputWorld : World :=
  { newClient := none
    containerList := fun _ => .ok [⟨"aaaa", ["/a"], "running"⟩]
    containerLogs := fun _ _ _ => .ok ⟨.never "line\n"⟩ }

/-- The daemon refuses the listing. -/
def listFailWorld : World :=
  { newClient := none
    containerList := fun _ => .error "daemon unreachable"
    containerLogs := fun _ _ _ => .ok ⟨.returns "" none 0⟩ }

/-- An exited container, then a running container without a name. -/
def exitedThenNamelessWorld : World :=
  { newClient := none
    containerList := fun _ =>
      .ok [⟨"aaaa", ["/a"], "exited"⟩, ⟨"bbbb", [], "running"⟩]
    containerLogs := fun _ _ _ => .ok ⟨.returns "" none 0⟩ }

/-- Two containers, none of them running. -/
def idleWorld : World :=
  { newClient := none
    containerList := fun _ =>
      .ok [⟨"aaaa", ["/a"], "exited"⟩, ⟨"bbbb", ["/b"], "paused"⟩]
    containerLogs := fun _ _ _ => .ok ⟨.returns "" none 0⟩ }

/-- One running container whose copy fails on a read 3 seconds after the time-out context
was created. -/
def lateErrorWorld : World :=
  { newClient := none
    containerList := fun _ => .ok [⟨"aaaa", ["/a"], "running"⟩]
    containerLogs := fun _ _ _ =>
      .ok ⟨.returns "partial\n" (some (.read "unexpected EOF")) 3000000000⟩ }

/-- One running container whose copy fails at once with the given error. -/
def copyErrorWorld (err : CopyError) : World :=
  { newClient := none
    containerList := fun _ => .ok [⟨"aaaa", ["/a"], "running"⟩]
    containerLogs := fun _ _ _ => .ok ⟨.returns "" (some err) 0⟩ }

/-- A running container without a name between two running containers with one. -/
def namelessMiddleWorld : World :=
  { newClient := none
    containerList := fun _ =>
      .ok [⟨"aaaa", ["/a"], "running"⟩, ⟨"bbbb", [], "running"⟩, ⟨"cccc", ["/c"], "running"⟩]
    containerLogs := fun _ _ _ => .ok ⟨.returns "" none 0⟩ }

/-- The messages that report a failed fetch: `Error fetching logs ...` (line 61) and
`Error reading logs ...` (line 75). -/
def Msg.isFailure : Msg → Bool
  | .errFetching _ _ => true
  | .errReading _ => true
  | _ => false

/-! ## The loop body, case by case -/

theorem isRunning_iff (c : Container) : isRunning c = true ↔ c.State = "running" := by
  simp [isRunning]

theorem body_not_running (w : World) (k : Nat) (c : Container) (h : isRunning c = false) :
    body w k c = ⟨[], [], .next⟩ := by
  have h1 : (c.State != "running") = true := by
    simpa [isRunning, bne] using h
  simp [body, h1]

theorem body_nameless (w : World) (k : Nat) (c : Container) (h : isRunning c = true)
    (hn : c.Names = []) : body w k c = ⟨[], [], .panicked⟩ := by
  have h1 : (c.State != "running") = false := by
    simpa [isRunning, bne] using h
  simp [body, h1, hn]

theorem body_open_error (w : World) (k : Nat) (c : Container) (name : String)
    (rest : List String) (err : String) (h : isRunning c = true) (hn : c.Names = name :: rest)
    (ho : w.containerLogs k c.ID options = .error err) :
    body w k c = ⟨[.stdout (.banner name (truncate 12 c.ID)),
      .containerLogs c.ID options none, .stdout (.errFetching c.ID err)], [], .next⟩ := by
  have h1 : (c.State != "running") = false := by
    simpa [isRunning, bne] using h
  simp [body, h1, hn, ho]

theorem body_never (w : World) (k : Nat) (c : Container) (name : String)
    (rest : List String) (logs : LogStream) (written : String) (h : isRunning c = true)
    (hn : c.Names = name :: rest) (ho : w.containerLogs k c.ID options = .ok logs)
    (hc : logs.copy = .never written) :
    body w k c = ⟨[.stdout (.banner name (truncate 12 c.ID)),
      .containerLogs c.ID options (some k), .stdout .recentLogs, .copy k written],
      [.cancel k], .blocked⟩ := by
  have h1 : (c.State != "running") = false := by
    simpa [isRunning, bne] using h
  simp [body, h1, hn, ho, hc]

theorem body_killed (w : World) (k : Nat) (c : Container) (name : String)
    (rest : List String) (logs : LogStream) (written : String) (h : isRunning c = true)
    (hn : c.Names = name :: rest) (ho : w.containerLogs k c.ID options = .ok logs)
    (hc : logs.copy = .killed written) :
    body w k c = ⟨[.stdout (.banner name (truncate 12 c.ID)),
      .containerLogs c.ID options (some k), .stdout .recentLogs, .copy k written],
      [.cancel k], .killed⟩ := by
  have h1 : (c.State != "running") = false := by
    simpa [isRunning, bne] using h
  simp [body, h1, hn, ho, hc]

theorem body_returns (w : World) (k : Nat) (c : Container) (name : String)
    (rest : List String) (logs : LogStream) (written : String) (err : Option CopyError)
    (elapsed : Nat) (h : isRunning c = true)
    (hn : c.Names = name :: rest) (ho : w.containerLogs k c.ID options = .ok logs)
    (hc : logs.copy = .returns written err elapsed) :
    body w k c = ⟨[.stdout (.banner name (truncate 12 c.ID)),
      .containerLogs c.ID options (some k), .stdout .recentLogs, .copy k written]
      ++ reportCopy err ++ [.close k, .stdout .separator] ++ selectDone elapsed,
      [.cancel k], .next⟩ := by
  have h1 : (c.State != "running") = false := by
    simpa [isRunning, bne] using h
  simp [body, h1, hn, ho, hc]

theorem body_cases (w : World) (k : Nat) (c : Container) : BodyCase w k c := by
  cases h : isRunning c with
  | false => exact .skipped h (body_not_running w k c h)
  | true =>
    cases hn : c.Names with
    | nil => exact .nameless h hn (body_nameless w k c h hn)
    | cons name rest =>
      cases ho : w.containerLogs k c.ID options with
      | error err => exact .openError name rest err h hn ho (body_open_error w k c name rest err h hn ho)
      | ok logs =>
        cases hc : logs.copy with
        | never written =>
          exact .never name rest logs written h hn ho hc
            (body_never w k c name rest logs written h hn ho hc)
        | killed written =>
          exact .killed name rest logs written h hn ho hc
            (body_killed w k c name rest logs written h hn ho hc)
        | returns written err elapsed =>
          exact .returns name rest logs written err elapsed h hn ho hc
            (body_returns w k c name rest logs written err elapsed h hn ho hc)

theorem loop_nil (w : World) (k : Nat) : loop w k [] = ⟨[], [], .next⟩ := rfl

theorem loop_cons_next (w : World) (k : Nat) (c : Container) (rest : List Container)
    (h : (body w k c).flow = .next) :
    loop w k (c :: rest) = ⟨(body w k c).events ++ (loop w (k + 1) rest).events,
      (loop w (k + 1) rest).deferred ++ (body w k c).deferred, (loop w (k + 1) rest).flow⟩ := by
  simp [loop, h]

theorem loop_cons_stop (w : World) (k : Nat) (c : Container) (rest : List Container)
    (h : (body w k c).flow ≠ .next) : loop w k (c :: rest) = body w k c := by
  cases hf : (body w k c).flow with
  | next => exact absurd hf h
  | panicked => simp [loop, hf]
  | blocked => simp [loop, hf]
  | killed => simp [loop, hf]

/-! ## Shape of a run -/

theorem main_client_error (w : World) (err : String) (hc : w.newClient = some err) :
    main w = ⟨[.newClient, .stdout (.errClient err)], .exited 1⟩ := by
  simp [main, hc]

theorem main_list_error (w : World) (err : String) (hc : w.newClient = none)
    (hl : w.containerList { All := true } = .error err) :
    main w = ⟨[.newClient, .containerList { All := true }, .stdout (.errListing err)],
      .exited 1⟩ := by
  simp [main, hc, hl]

theorem main_empty (w : World) (hc : w.newClient = none)
    (hl : w.containerList { All := true } = .ok []) :
    main w = ⟨[.newClient, .containerList { All := true }, .stdout .noContainers, .cliClose],
      .returned⟩ := by
  simp [main, hc, hl]

theorem main_next (w : World) (cs : List Container) (hc : w.newClient = none)
    (hl : w.containerList { All := true } = .ok cs) (hne : cs ≠ [])
    (hf : (loop w 0 cs).flow = .next) :
    main w = ⟨[.newClient, .containerList { All := true }, .stdout .header,
      .stdout (.found cs.length)] ++ (loop w 0 cs).events ++ [.stdout .completed]
      ++ (loop w 0 cs).deferred ++ [.cliClose], .returned⟩ := by
  have h0 : cs.length ≠ 0 := by simpa using hne
  simp [main, hc, hl, h0, hf]

theorem main_panicked (w : World) (cs : List Container) (hc : w.newClient = none)
    (hl : w.containerList { All := true } = .ok cs)
    (hf : (loop w 0 cs).flow = .panicked) :
    main w = ⟨[.newClient, .containerList { All := true }, .stdout .header,
      .stdout (.found cs.length)] ++ (loop w 0 cs).events
      ++ (loop w 0 cs).deferred ++ [.cliClose], .panicked⟩ := by
  have h0 : cs.length ≠ 0 := by
    intro h
    have : cs = [] := List.length_eq_zero.mp h
    subst this
    simp [loop] at hf
  simp [main, hc, hl, h0, hf]

theorem main_blocked (w : World) (cs : List Container) (hc : w.newClient = none)
    (hl : w.containerList { All := true } = .ok cs)
    (hf : (loop w 0 cs).flow = .blocked) :
    main w = ⟨[.newClient, .containerList { All := true }, .stdout .header,
      .stdout (.found cs.length)] ++ (loop w 0 cs).events, .blocked⟩ := by
  have h0 : cs.length ≠ 0 := by
    intro h
    have : cs = [] := List.length_eq_zero.mp h
    subst this
    simp [loop] at hf
  simp [main, hc, hl, h0, hf]

theorem main_killed (w : World) (cs : List Container) (hc : w.newClient = none)
    (hl : w.containerList { All := true } = .ok cs)
    (hf : (loop w 0 cs).flow = .killed) :
    main w = ⟨[.newClient, .containerList { All := true }, .stdout .header,
      .stdout (.found cs.length)] ++ (loop w 0 cs).events, .killed⟩ := by
  have h0 : cs.length ≠ 0 := by
    intro h
    have : cs = [] := List.length_eq_zero.mp h
    subst this
    simp [loop] at hf
  simp [main, hc, hl, h0, hf]

theorem copy_ne_never (w : World) (hr : w.copiesReturn) (k : Nat) (id : String)
    (opts : ContainerLogsOptions) (logs : LogStream) (written : String)
    (ho : w.containerLogs k id opts = .ok logs) : logs.copy ≠ .never written := by
  obtain ⟨wr, e, el, h⟩ := hr k id opts logs ho
  rw [h]
  simp

theorem copy_ne_killed (w : World) (hr : w.copiesReturn) (k : Nat) (id : String)
    (opts : ContainerLogsOptions) (logs : LogStream) (written : String)
    (ho : w.containerLogs k id opts = .ok logs) : logs.copy ≠ .killed written := by
  obtain ⟨wr, e, el, h⟩ := hr k id opts logs ho
  rw [h]
  simp

theorem noCopyKilled_of_copiesReturn (w : World) (hr : w.copiesReturn) : w.noCopyKilled :=
  fun k id opts logs written ho => copy_ne_killed w hr k id opts logs written ho

/-! ## The deferred calls of the loop -/

theorem body_deferred_cancel (w : World) (k : Nat) (c : Container) :
    ∀ e ∈ (body w k c).deferred, ∃ h, e = .cancel h := by
  intro e he
  cases body_cases w k c with
  | skipped h hb => simp [hb] at he
  | nameless h hn hb => simp [hb] at he
  | openError name rest err h hn ho hb => simp [hb] at he
  | never name rest logs written h hn ho hc hb =>
    simp [hb] at he
    exact ⟨k, he⟩
  | killed name rest logs written h hn ho hc hb =>
    simp [hb] at he
    exact ⟨k, he⟩
  | returns name rest logs written err elapsed h hn ho hc hb =>
    simp [hb] at he
    exact ⟨k, he⟩

theorem loop_deferred_cancel (w : World) (cs : List Container) :
    ∀ k, ∀ e ∈ (loop w k cs).deferred, ∃ h, e = .cancel h := by
  induction cs with
  | nil => intro k e he; simp [loop] at he
  | cons c rest ih =>
    intro k e he
    by_cases hf : (body w k c).flow = .next
    · rw [loop_cons_next w k c rest hf] at he
      simp only [List.mem_append] at he
      rcases he with he | he
      · exact ih (k + 1) e he
      · exact body_deferred_cancel w k c e he
    · rw [loop_cons_stop w k c rest hf] at he
      exact body_deferred_cancel w k c e he

theorem filterMap_deferred {β : Type} (f : Event → Option β) (hf : ∀ h, f (.cancel h) = none)
    (w : World) (k : Nat) (cs : List Container) : (loop w k cs).deferred.filterMap f = [] := by
  rw [List.filterMap_eq_nil_iff]
  intro e he
  obtain ⟨h, rfl⟩ := loop_deferred_cancel w cs k e he
  exact hf h

/-! ## When the loop runs to its end -/

theorem body_flow_next (w : World) (k : Nat) (c : Container)
    (hn : isRunning c = true → c.Names ≠ []) (hr : w.copiesReturn) :
    (body w k c).flow = .next := by
  cases body_cases w k c with
  | skipped h hb => simp [hb]
  | nameless h hn1 hb => exact absurd hn1 (hn h)
  | openError name rest err h hn1 ho hb => simp [hb]
  | never name rest logs written h hn1 ho hc hb =>
    exact absurd hc (copy_ne_never w hr k c.ID options logs written ho)
  | killed name rest logs written h hn1 ho hc hb =>
    exact absurd hc (copy_ne_killed w hr k c.ID options logs written ho)
  | returns name rest logs written err elapsed h hn1 ho hc hb => simp [hb]

theorem loop_flow_next (w : World) (cs : List Container) (hn : allNamed cs)
    (hr : w.copiesReturn) : ∀ k, (loop w k cs).flow = .next := by
  induction cs with
  | nil => intro k; rfl
  | cons c rest ih =>
    intro k
    have hb := body_flow_next w k c (hn c (List.mem_cons_self c rest)) hr
    rw [loop_cons_next w k c rest hb]
    exact ih (fun d hd => hn d (List.mem_cons_of_mem c hd)) (k + 1)

theorem body_flow_ne_panicked (w : World) (k : Nat) (c : Container)
    (hn : isRunning c = true → c.Names ≠ []) : (body w k c).flow ≠ .panicked := by
  cases body_cases w k c with
  | skipped h hb => simp [hb]
  | nameless h hn1 hb => exact absurd hn1 (hn h)
  | openError name rest err h hn1 ho hb => simp [hb]
  | never name rest logs written h hn1 ho hc hb => simp [hb]
  | killed name rest logs written h hn1 ho hc hb => simp [hb]
  | returns name rest logs written err elapsed h hn1 ho hc hb => simp [hb]

theorem loop_flow_ne_panicked (w : World) (cs : List Container) (hn : allNamed cs) :
    ∀ k, (loop w k cs).flow ≠ .panicked := by
  induction cs with
  | nil => intro k; simp [loop]
  | cons c rest ih =>
    intro k
    have hb := body_flow_ne_panicked w k c (hn c (List.mem_cons_self c rest))
    by_cases hf : (body w k c).flow = .next
    · rw [loop_cons_next w k c rest hf]
      exact ih (fun d hd => hn d (List.mem_cons_of_mem c hd)) (k + 1)
    · rw [loop_cons_stop w k c rest hf]
      exact hb

theorem body_flow_ne_blocked (w : World) (k : Nat) (c : Container)
    (hr : w.copiesReturn) : (body w k c).flow ≠ .blocked := by
  cases body_cases w k c with
  | skipped h hb => simp [hb]
  | nameless h hn1 hb => simp [hb]
  | openError name rest err h hn1 ho hb => simp [hb]
  | never name rest logs written h hn1 ho hc hb =>
    exact absurd hc (copy_ne_never w hr k c.ID options logs written ho)
  | killed name rest logs written h hn1 ho hc hb => simp [hb]
  | returns name rest logs written err elapsed h hn1 ho hc hb => simp [hb]

theorem loop_flow_ne_blocked (w : World) (cs : List Container) (hr : w.copiesReturn) :
    ∀ k, (loop w k cs).flow ≠ .blocked := by
  induction cs with
  | nil => intro k; simp [loop]
  | cons c rest ih =>
    intro k
    by_cases hf : (body w k c).flow = .next
    · rw [loop_cons_next w k c rest hf]
      exact ih (k + 1)
    · rw [loop_cons_stop w k c rest hf]
      exact body_flow_ne_blocked w k c hr

theorem body_flow_ne_killed (w : World) (k : Nat) (c : Container)
    (hk : w.noCopyKilled) : (body w k c).flow ≠ .killed := by
  cases body_cases w k c with
  | skipped h hb => simp [hb]
  | nameless h hn1 hb => simp [hb]
  | openError name rest err h hn1 ho hb => simp [hb]
  | never name rest logs written h hn1 ho hc hb => simp [hb]
  | killed name rest logs written h hn1 ho hc hb =>
    exact absurd hc (hk k c.ID options logs written ho)
  | returns name rest logs written err elapsed h hn1 ho hc hb => simp [hb]

theorem loop_flow_ne_killed (w : World) (cs : List Container) (hk : w.noCopyKilled) :
    ∀ k, (loop w k cs).flow ≠ .killed := by
  induction cs with
  | nil => intro k; simp [loop]
  | cons c rest ih =>
    intro k
    by_cases hf : (body w k c).flow = .next
    · rw [loop_cons_next w k c rest hf]
      exact ih (k + 1)
    · rw [loop_cons_stop w k c rest hf]
      exact body_flow_ne_killed w k c hk

/-! ## Splitting the container list -/

theorem loop_append_next (w : World) (pre rest : List Container) :
    ∀ k, (loop w k pre).flow = .next →
      loop w k (pre ++ rest) = ⟨(loop w k pre).events ++ (loop w (k + pre.length) rest).events,
        (loop w (k + pre.length) rest).deferred ++ (loop w k pre).deferred,
        (loop w (k + pre.length) rest).flow⟩ := by
  induction pre with
  | nil => intro k _; simp [loop]
  | cons c pre ih =>
    intro k hf
    by_cases hb : (body w k c).flow = .next
    · rw [loop_cons_next w k c pre hb] at hf
      simp only at hf
      have e : k + (c :: pre).length = k + 1 + pre.length := by
        simp only [List.length_cons]; omega
      rw [List.cons_append, loop_cons_next w k c (pre ++ rest) hb, ih (k + 1) hf,
        loop_cons_next w k c pre hb, e]
      simp [List.append_assoc]
    · rw [loop_cons_stop w k c pre hb] at hf
      exact absurd hf hb

theorem loop_append_stop (w : World) (pre rest : List Container) :
    ∀ k, (loop w k pre).flow ≠ .next → loop w k (pre ++ rest) = loop w k pre := by
  induction pre with
  | nil => intro k hf; simp [loop] at hf
  | cons c pre ih =>
    intro k hf
    by_cases hb : (body w k c).flow = .next
    · rw [loop_cons_next w k c pre hb] at hf
      simp only at hf
      rw [List.cons_append, loop_cons_next w k c (pre ++ rest) hb, ih (k + 1) hf,
        loop_cons_next w k c pre hb]
    · rw [List.cons_append, loop_cons_stop w k c (pre ++ rest) hb, loop_cons_stop w k c pre hb]

theorem running_eq (cs : List Container) :
    running cs = cs.filter (fun c => c.State == "running") := rfl

theorem running_cons_true (c : Container) (rest : List Container) (h : isRunning c = true) :
    running (c :: rest) = c :: running rest := by
  simp [running, h]

theorem running_cons_false (c : Container) (rest : List Container) (h : isRunning c = false) :
    running (c :: rest) = running rest := by
  simp [running, h]

/-! ## The entries and the fetches of the loop -/

theorem entries_append (s t : List Event) : entries (s ++ t) = entries s ++ entries t := by
  simp [entries]

theorem fetches_append (s t : List Event) : fetches (s ++ t) = fetches s ++ fetches t := by
  simp [fetches]

theorem messages_append (s t : List Event) : messages (s ++ t) = messages s ++ messages t := by
  simp [messages]

theorem handleEvents_append (s t : List Event) :
    handleEvents (s ++ t) = handleEvents s ++ handleEvents t := by
  simp [handleEvents]

theorem openedHandles_append (s t : List Event) :
    openedHandles (s ++ t) = openedHandles s ++ openedHandles t := by
  simp [openedHandles]

theorem entries_reportCopy (err : Option CopyError) : entries (reportCopy err) = [] := by
  cases err <;> simp [reportCopy, entries]

theorem entries_selectDone (elapsed : Nat) : entries (selectDone elapsed) = [] := by
  unfold selectDone logCtxErr
  split_ifs <;> simp [entries]

theorem fetches_reportCopy (err : Option CopyError) : fetches (reportCopy err) = [] := by
  cases err <;> simp [reportCopy, fetches]

theorem fetches_selectDone (elapsed : Nat) : fetches (selectDone elapsed) = [] := by
  unfold selectDone logCtxErr
  split_ifs <;> simp [fetches]

theorem handleEvents_reportCopy (err : Option CopyError) : handleEvents (reportCopy err) = [] := by
  cases err <;> simp [reportCopy, handleEvents]

theorem handleEvents_selectDone (elapsed : Nat) : handleEvents (selectDone elapsed) = [] := by
  unfold selectDone logCtxErr
  split_ifs <;> simp [handleEvents]

theorem openedHandles_reportCopy (err : Option CopyError) :
    openedHandles (reportCopy err) = [] := by
  cases err <;> simp [reportCopy, openedHandles]

theorem openedHandles_selectDone (elapsed : Nat) : openedHandles (selectDone elapsed) = [] := by
  unfold selectDone logCtxErr
  split_ifs <;> simp [openedHandles]

/-- Entries of one iteration: one for a running container with a name, whatever the fetch does. -/
theorem entries_body (w : World) (k : Nat) (c : Container) :
    entries (body w k c).events =
      if isRunning c = true then
        match c.Names with
        | [] => []
        | name :: _ => [(name, truncate 12 c.ID)]
      else [] := by
  cases body_cases w k c with
  | skipped h hb => simp [hb, h, entries]
  | nameless h hn hb => simp [hb, h, hn, entries]
  | openError name rest err h hn ho hb => simp [hb, h, hn, entries]
  | never name rest logs written h hn ho hc hb => simp [hb, h, hn, entries]
  | killed name rest logs written h hn ho hc hb => simp [hb, h, hn, entries]
  | returns name rest logs written err elapsed h hn ho hc hb =>
    rw [hb]
    simp only [entries_append, entries_reportCopy, entries_selectDone]
    simp [h, hn, entries]

/-- Fetches of one iteration: one for a running container with a name, whatever the fetch does. -/
theorem fetches_body (w : World) (k : Nat) (c : Container) :
    fetches (body w k c).events =
      if isRunning c = true then
        match c.Names with
        | [] => []
        | _ :: _ => [(c.ID, options)]
      else [] := by
  cases body_cases w k c with
  | skipped h hb => simp [hb, h, fetches]
  | nameless h hn hb => simp [hb, h, hn, fetches]
  | openError name rest err h hn ho hb => simp [hb, h, hn, fetches]
  | never name rest logs written h hn ho hc hb => simp [hb, h, hn, fetches]
  | killed name rest logs written h hn ho hc hb => simp [hb, h, hn, fetches]
  | returns name rest logs written err elapsed h hn ho hc hb =>
    rw [hb]
    simp only [fetches_append, fetches_reportCopy, fetches_selectDone]
    simp [h, hn, fetches]

theorem body_next_named (w : World) (k : Nat) (c : Container) (hf : (body w k c).flow = .next)
    (h : isRunning c = true) : ∃ name rest, c.Names = name :: rest := by
  cases body_cases w k c with
  | skipped h1 hb => simp [h] at h1
  | nameless h1 hn hb => simp [hb] at hf
  | openError name rest err h1 hn ho hb => exact ⟨name, rest, hn⟩
  | never name rest logs written h1 hn ho hc hb => exact ⟨name, rest, hn⟩
  | killed name rest logs written h1 hn ho hc hb => exact ⟨name, rest, hn⟩
  | returns name rest logs written err elapsed h1 hn ho hc hb => exact ⟨name, rest, hn⟩

theorem entries_loop_next (w : World) (cs : List Container) :
    ∀ k, (loop w k cs).flow = .next →
      (entries (loop w k cs).events).map (fun e => (some e.1, e.2))
        = (running cs).map (fun c => (c.Names.head?, truncate 12 c.ID)) := by
  induction cs with
  | nil => intro k _; simp [loop, entries, running]
  | cons c rest ih =>
    intro k hf
    by_cases hb : (body w k c).flow = .next
    · rw [loop_cons_next w k c rest hb] at hf ⊢
      simp only at hf
      simp only [entries_append, List.map_append, ih (k + 1) hf, entries_body]
      cases h : isRunning c with
      | false => simp [running_cons_false c rest h]
      | true =>
        obtain ⟨name, tl, hn⟩ := body_next_named w k c hb h
        simp [running_cons_true c rest h, hn]
    · rw [loop_cons_stop w k c rest hb] at hf
      exact absurd hf hb

theorem fetches_loop_next (w : World) (cs : List Container) :
    ∀ k, (loop w k cs).flow = .next →
      fetches (loop w k cs).events = (running cs).map (fun c => (c.ID, options)) := by
  induction cs with
  | nil => intro k _; simp [loop, fetches, running]
  | cons c rest ih =>
    intro k hf
    by_cases hb : (body w k c).flow = .next
    · rw [loop_cons_next w k c rest hb] at hf ⊢
      simp only at hf
      simp only [fetches_append, ih (k + 1) hf, fetches_body]
      cases h : isRunning c with
      | false => simp [running_cons_false c rest h]
      | true =>
        obtain ⟨name, tl, hn⟩ := body_next_named w k c hb h
        simp [running_cons_true c rest h, hn]
    · rw [loop_cons_stop w k c rest hb] at hf
      exact absurd hf hb

/-- Whatever happens, the fetches made are an initial segment of the running containers. -/
theorem fetches_loop_initial (w : World) (cs : List Container) :
    ∀ k, ∃ rest, fetches (loop w k cs).events ++ rest
      = (running cs).map (fun c => (c.ID, options)) := by
  induction cs with
  | nil => intro k; exact ⟨[], by simp [loop, fetches, running]⟩
  | cons c tl ih =>
    intro k
    by_cases hb : (body w k c).flow = .next
    · obtain ⟨rest, hrest⟩ := ih (k + 1)
      refine ⟨rest, ?_⟩
      rw [loop_cons_next w k c tl hb]
      simp only [fetches_append, fetches_body, List.append_assoc, hrest]
      cases h : isRunning c with
      | false => simp [running_cons_false c tl h]
      | true =>
        obtain ⟨name, nt, hn⟩ := body_next_named w k c hb h
        simp [running_cons_true c tl h, hn]
    · rw [loop_cons_stop w k c tl hb, fetches_body]
      cases h : isRunning c with
      | false => exact ⟨(running (c :: tl)).map (fun c => (c.ID, options)), by simp⟩
      | true =>
        rw [running_cons_true c tl h]
        cases hn : c.Names with
        | nil => exact ⟨(c :: running tl).map (fun c => (c.ID, options)), by simp⟩
        | cons name nt => exact ⟨(running tl).map (fun c => (c.ID, options)), by simp⟩

/-! ## The run around the loop -/

/-- With a client and a container list, the trace is the events of the loop
between events from outside the loop. -/
theorem main_trace (w : World) (cs : List Container) (hc : w.newClient = none)
    (hl : w.containerList { All := true } = .ok cs) :
    ∃ pre post, (main w).trace = pre ++ (loop w 0 cs).events ++ post
      ∧ (∀ e ∈ pre, outsideLoop e) ∧ (∀ e ∈ post, outsideLoop e) := by
  by_cases hne : cs = []
  · subst hne
    refine ⟨[.newClient, .containerList { All := true }, .stdout .noContainers, .cliClose], [], ?_, ?_, ?_⟩
    · rw [main_empty w hc hl]; simp [loop]
    · intro e he
      simp at he
      rcases he with rfl | rfl | rfl | rfl <;> simp [outsideLoop]
    · intro e he; simp at he
  · have hpre : ∀ e ∈ [Event.newClient, .containerList { All := true }, .stdout .header,
        .stdout (.found cs.length)], outsideLoop e := by
      intro e he
      simp at he
      rcases he with rfl | rfl | rfl | rfl <;> simp [outsideLoop]
    have hdef : ∀ e ∈ (loop w 0 cs).deferred, outsideLoop e := by
      intro e he
      obtain ⟨h, rfl⟩ := loop_deferred_cancel w cs 0 e he
      simp [outsideLoop]
    cases hf : (loop w 0 cs).flow with
    | next =>
      refine ⟨_, [.stdout .completed] ++ (loop w 0 cs).deferred ++ [.cliClose], ?_, hpre, ?_⟩
      · rw [main_next w cs hc hl hne hf]; simp [List.append_assoc]
      · intro e he
        simp only [List.mem_append, List.mem_singleton] at he
        rcases he with (rfl | he) | rfl
        · simp [outsideLoop]
        · exact hdef e he
        · simp [outsideLoop]
    | panicked =>
      refine ⟨_, (loop w 0 cs).deferred ++ [.cliClose], ?_, hpre, ?_⟩
      · rw [main_panicked w cs hc hl hf]; simp [List.append_assoc]
      · intro e he
        simp only [List.mem_append, List.mem_singleton] at he
        rcases he with he | rfl
        · exact hdef e he
        · simp [outsideLoop]
    | blocked =>
      refine ⟨_, [], ?_, hpre, ?_⟩
      · rw [main_blocked w cs hc hl hf]; simp
      · intro e he; simp at he
    | killed =>
      refine ⟨_, [], ?_, hpre, ?_⟩
      · rw [main_killed w cs hc hl hf]; simp
      · intro e he; simp at he

theorem filterMap_outside {β : Type} (f : Event → Option β)
    (hf : ∀ e, outsideLoop e → f e = none) (l : List Event) (hl : ∀ e ∈ l, outsideLoop e) :
    l.filterMap f = [] := by
  rw [List.filterMap_eq_nil_iff]
  intro e he
  exact hf e (hl e he)

theorem entries_main (w : World) (cs : List Container) (hc : w.newClient = none)
    (hl : w.containerList { All := true } = .ok cs) :
    entries (main w).trace = entries (loop w 0 cs).events := by
  obtain ⟨pre, post, ht, hpre, hpost⟩ := main_trace w cs hc hl
  have hf : ∀ e, outsideLoop e → (match e with
      | .stdout (.banner name shownId) => some (name, shownId)
      | _ => none) = none := by
    intro e he
    cases e with
    | stdout m => cases m <;> simp_all [outsideLoop]
    | _ => simp_all [outsideLoop]
  rw [ht, entries_append, entries_append]
  have h1 : entries pre = [] := filterMap_outside _ hf pre hpre
  have h2 : entries post = [] := filterMap_outside _ hf post hpost
  simp [h1, h2]

theorem fetches_main (w : World) (cs : List Container) (hc : w.newClient = none)
    (hl : w.containerList { All := true } = .ok cs) :
    fetches (main w).trace = fetches (loop w 0 cs).events := by
  obtain ⟨pre, post, ht, hpre, hpost⟩ := main_trace w cs hc hl
  have hf : ∀ e, outsideLoop e → (match e with
      | .containerLogs id opts _ => some (id, opts)
      | _ => none) = none := by
    intro e he
    cases e <;> simp_all [outsideLoop]
  rw [ht, fetches_append, fetches_append]
  have h1 : fetches pre = [] := filterMap_outside _ hf pre hpre
  have h2 : fetches post = [] := filterMap_outside _ hf post hpost
  simp [h1, h2]

theorem handleEvents_main (w : World) (cs : List Container) (hc : w.newClient = none)
    (hl : w.containerList { All := true } = .ok cs) :
    handleEvents (main w).trace = handleEvents (loop w 0 cs).events := by
  obtain ⟨pre, post, ht, hpre, hpost⟩ := main_trace w cs hc hl
  have hf : ∀ e, outsideLoop e → (match e with
      | .containerLogs _ _ (some h) => some (HandleEvent.opened h)
      | .close h => some (.closed h)
      | _ => none) = none := by
    intro e he
    cases e <;> simp_all [outsideLoop]
  rw [ht, handleEvents_append, handleEvents_append]
  have h1 : handleEvents pre = [] := filterMap_outside _ hf pre hpre
  have h2 : handleEvents post = [] := filterMap_outside _ hf post hpost
  simp [h1, h2]

theorem openedHandles_main (w : World) (cs : List Container) (hc : w.newClient = none)
    (hl : w.containerList { All := true } = .ok cs) :
    openedHandles (main w).trace = openedHandles (loop w 0 cs).events := by
  obtain ⟨pre, post, ht, hpre, hpost⟩ := main_trace w cs hc hl
  have hf : ∀ e, outsideLoop e → (match e with
      | .containerLogs _ _ (some h) => some h
      | _ => none) = none := by
    intro e he
    cases e <;> simp_all [outsideLoop]
  rw [ht, openedHandles_append, openedHandles_append]
  have h1 : openedHandles pre = [] := filterMap_outside _ hf pre hpre
  have h2 : openedHandles post = [] := filterMap_outside _ hf post hpost
  simp [h1, h2]

theorem sampleWorld_copiesReturn : sampleWorld.copiesReturn := by
  intro k id opts logs h
  simp only [sampleWorld] at h
  split at h
  · cases h
    exact ⟨_, _, _, rfl⟩
  · cases h

theorem sampleContainers_allNamed : allNamed sampleContainers := by
  intro c hc _
  simp [sampleContainers] at hc
  rcases hc with rfl | rfl | rfl <;> simp

theorem errFetching_mem_loop (w : World) (cs : List Container) (id err : String) :
    ∀ k, Event.stdout (.errFetching id err) ∈ (loop w k cs).events →
      ∃ c ∈ cs, c.State = "running" ∧ c.ID = id := by
  induction cs with
  | nil => intro k h; simp [loop] at h
  | cons c rest ih =>
    intro k h
    have hbody : Event.stdout (.errFetching id err) ∈ (body w k c).events →
        c.State = "running" ∧ c.ID = id := by
      intro hm
      cases body_cases w k c with
      | skipped h1 hb => simp [hb] at hm
      | nameless h1 hn hb => simp [hb] at hm
      | openError name tl e h1 hn ho hb =>
        simp [hb] at hm
        exact ⟨(isRunning_iff c).mp h1, hm.1.symm⟩
      | never name tl logs written h1 hn ho hc hb => simp [hb] at hm
      | killed name tl logs written h1 hn ho hc hb => simp [hb] at hm
      | returns name tl logs written e elapsed h1 hn ho hc hb =>
        rw [hb] at hm
        cases e <;> simp [reportCopy, selectDone, logCtxErr] at hm <;> split_ifs at hm <;> simp at hm
    by_cases hf : (body w k c).flow = .next
    · rw [loop_cons_next w k c rest hf] at h
      simp only [List.mem_append] at h
      rcases h with h | h
      · exact ⟨c, List.mem_cons_self c rest, hbody h⟩
      · obtain ⟨d, hd, hd2⟩ := ih (k + 1) h
        exact ⟨d, List.mem_cons_of_mem c hd, hd2⟩
    · rw [loop_cons_stop w k c rest hf] at h
      exact ⟨c, List.mem_cons_self c rest, hbody h⟩

theorem errFetching_mem_main (w : World) (cs : List Container) (hc : w.newClient = none)
    (hl : w.containerList { All := true } = .ok cs) (id err : String)
    (h : Event.stdout (.errFetching id err) ∈ (main w).trace) :
    ∃ c ∈ cs, c.State = "running" ∧ c.ID = id := by
  obtain ⟨pre, post, ht, hpre, hpost⟩ := main_trace w cs hc hl
  rw [ht] at h
  simp only [List.mem_append] at h
  rcases h with (h | h) | h
  · have := hpre _ h
    simp [outsideLoop] at this
  · exact errFetching_mem_loop w cs id err 0 h
  · have := hpost _ h
    simp [outsideLoop] at this

theorem main_status_returned (w : World) (cs : List Container) (hc : w.newClient = none)
    (hl : w.containerList { All := true } = .ok cs) (hf : (loop w 0 cs).flow = .next) :
    (main w).status = .returned := by
  by_cases hne : cs = []
  · subst hne; rw [main_empty w hc hl]
  · rw [main_next w cs hc hl hne hf]

/-! ## The claims -/

/-- C1, as stated, fails: for the list holding one running container without a name the
run panics at `container.Names[0]` before anything of the report is printed, so the
report has no entry although one container is running. -/
theorem nameless_container_has_no_entry :
    namelessWorld.newClient = none
    ∧ namelessWorld.containerList { All := true } = .ok [⟨"c0ffee", [], "running"⟩]
    ∧ main namelessWorld = ⟨[.newClient, .containerList { All := true }, .stdout .header,
        .stdout (.found 1), .cliClose], .panicked⟩
    ∧ (entries (main namelessWorld).trace).length = 0
    ∧ (running [⟨"c0ffee", [], "running"⟩]).length = 1 := by
  refine ⟨rfl, rfl, ?_, ?_, ?_⟩ <;> decide

/-- C1, amended: when every running container of the list has at least one name and every
copy returns, the report has exactly one entry per running container, in list order: the
entries are the first name and the first 12 characters of the identifier of the listed
containers filtered to state `running`; their number is the number of running
containers; and an error record names a listed running container only. -/
theorem report_entries_are_running_containers (w : World) (cs : List Container)
    (hc : w.newClient = none) (hl : w.containerList { All := true } = .ok cs)
    (hn : allNamed cs) (hr : w.copiesReturn) :
    (entries (main w).trace).map (fun e => (some e.1, e.2))
        = (cs.filter (fun c => c.State == "running")).map
            (fun c => (c.Names.head?, truncate 12 c.ID))
    ∧ (entries (main w).trace).length = (cs.filter (fun c => c.State == "running")).length
    ∧ (∀ id err, Event.stdout (.errFetching id err) ∈ (main w).trace →
        ∃ c ∈ cs, c.State = "running" ∧ c.ID = id) := by
  have hf := loop_flow_next w cs hn hr 0
  have h1 := entries_loop_next w cs 0 hf
  rw [← entries_main w cs hc hl] at h1
  refine ⟨h1, ?_, fun id err h => errFetching_mem_main w cs hc hl id err h⟩
  have h2 := congrArg List.length h1
  simpa [running, isRunning] using h2

/-- C1, amended, on the sample list: two entries, for the two running containers. -/
theorem report_entries_are_running_containers_witness :
    (entries (main sampleWorld).trace).map (fun e => (some e.1, e.2))
        = [(some "/web", "0123456789ab"), (some "/cache", "2222")] :=
  (report_entries_are_running_containers sampleWorld sampleContainers rfl rfl
    sampleContainers_allNamed sampleWorld_copiesReturn).1

/-- C2, as stated, fails on three inputs. When the first running container has no name the
run panics there and no fetch is attempted for the running container after it. When the
copy of the first of two named running containers never returns, the run hangs in it and
the second container is never fetched. When standard output is a broken pipe while the
logs of the first container are copied, the process is killed there, the second container
is never fetched and the run ends with an error status. -/
theorem nameless_container_stops_fetches :
    (namelessFirstWorld.newClient = none
      ∧ namelessFirstWorld.containerList { All := true }
          = .ok [⟨"aaaa", [], "running"⟩, ⟨"bbbb", ["/b"], "running"⟩]
      ∧ fetches (main namelessFirstWorld).trace = []
      ∧ (running [⟨"aaaa", [], "running"⟩, ⟨"bbbb", ["/b"], "running"⟩]).map (fun c => c.ID)
          = ["aaaa", "bbbb"]
      ∧ (main namelessFirstWorld).status = .panicked)
    ∧ (stalledWorld.containerList { All := true }
          = .ok [⟨"aaaa", ["/a"], "running"⟩, ⟨"bbbb", ["/b"], "running"⟩]
      ∧ (fetches (main stalledWorld).trace).map (fun f => f.1) = ["aaaa"]
      ∧ (main stalledWorld).status = .blocked)
    ∧ (brokenPipeWorld.containerList { All := true }
          = .ok [⟨"aaaa", ["/a"], "running"⟩, ⟨"bbbb", ["/b"], "running"⟩]
      ∧ (fetches (main brokenPipeWorld).trace).map (fun f => f.1) = ["aaaa"]
      ∧ (main brokenPipeWorld).status = .killed
      ∧ (main brokenPipeWorld).status.exitCode = some 141) := by
  refine ⟨⟨rfl, rfl, ?_, ?_, ?_⟩, ⟨rfl, ?_, ?_⟩, ⟨rfl, ?_, ?_, ?_⟩⟩ <;> decide

/-- C2, amended: when every running container of the list has at least one name and every
copy returns, then whatever the outcomes are (the open fails, the copy returns an error or
none, the deadline has passed or not when the copy returns) a fetch is attempted for every
running container: the identifiers passed to `cli.ContainerLogs` are those of the running
containers in list order, and the run ends by returning from `main`, with exit status 0.
Nothing is said of a copy that does not return. -/
theorem every_running_container_is_fetched (w : World) (cs : List Container)
    (hc : w.newClient = none) (hl : w.containerList { All := true } = .ok cs)
    (hn : allNamed cs) (hr : w.copiesReturn) :
    (fetches (main w).trace).map (fun f => f.1)
        = (cs.filter (fun c => c.State == "running")).map (fun c => c.ID)
    ∧ (main w).status = .returned
    ∧ (main w).status.exitCode = some 0 := by
  have hf := loop_flow_next w cs hn hr 0
  have h1 := fetches_loop_next w cs 0 hf
  rw [← fetches_main w cs hc hl] at h1
  have hs := main_status_returned w cs hc hl hf
  refine ⟨?_, hs, by rw [hs]; rfl⟩
  rw [h1, running_eq]
  simp [Function.comp_def]

/-- C2, amended, on the sample list: the second running container is fetched although the
fetch of the sample world fails to open for it, and the run returns. -/
theorem every_running_container_is_fetched_witness :
    (fetches (main sampleWorld).trace).map (fun f => f.1) = ["0123456789abcdef0123", "2222"]
    ∧ (main sampleWorld).status = .returned
    ∧ (main sampleWorld).status.exitCode = some 0 :=
  every_running_container_is_fetched sampleWorld sampleContainers rfl rfl
    sampleContainers_allNamed sampleWorld_copiesReturn

theorem loop_none_running (w : World) (cs : List Container)
    (h : ∀ c ∈ cs, c.State ≠ "running") : ∀ k, loop w k cs = ⟨[], [], .next⟩ := by
  induction cs with
  | nil => intro k; rfl
  | cons c rest ih =>
    intro k
    have hc : isRunning c = false := by
      have := h c (List.mem_cons_self c rest)
      simpa [isRunning] using this
    have hb := body_not_running w k c hc
    have hf : (body w k c).flow = .next := by rw [hb]
    rw [loop_cons_next w k c rest hf, ih (fun d hd => h d (List.mem_cons_of_mem c hd)) (k + 1), hb]
    rfl

theorem main_status_of_flow (w : World) (cs : List Container) (hc : w.newClient = none)
    (hl : w.containerList { All := true } = .ok cs) :
    (main w).status = match (loop w 0 cs).flow with
      | .next => .returned
      | .panicked => .panicked
      | .blocked => .blocked
      | .killed => .killed := by
  cases hf : (loop w 0 cs).flow with
  | next => exact main_status_returned w cs hc hl hf
  | panicked => rw [main_panicked w cs hc hl hf]
  | blocked => rw [main_blocked w cs hc hl hf]
  | killed => rw [main_killed w cs hc hl hf]

/-- C3, on the code: the log stream of the first of two running containers never ends.
The run hangs in `io.Copy` (line 73): no time-out line is printed, the stream is not
closed, and the second container is never fetched. -/
theorem stalled_stream_blocks_the_run :
    main stalledWorld = ⟨[.newClient, .containerList { All := true }, .stdout .header,
        .stdout (.found 2), .stdout (.banner "/a" "aaaa"),
        .containerLogs "aaaa" options (some 0), .stdout .recentLogs, .copy 0 ""], .blocked⟩
    ∧ Msg.timeout ∉ messages (main stalledWorld).trace
    ∧ fetches (main stalledWorld).trace = [("aaaa", options)]
    ∧ handleEvents (main stalledWorld).trace = [.opened 0]
    ∧ (main stalledWorld).status.exitCode = none := by
  refine ⟨?_, ?_, ?_, ?_, ?_⟩ <;> decide

/-- C4, as stated, fails in its converse, on two inputs. With a client and a successful
listing, a running container without a name makes the run end with the exit status of a
panic; and a standard output that is a broken pipe while logs are copied makes the run
end killed by `SIGPIPE`. -/
theorem nameless_container_ends_with_error_status :
    (exitedThenNamelessWorld.newClient = none
      ∧ exitedThenNamelessWorld.containerList { All := true }
          = .ok [⟨"aaaa", ["/a"], "exited"⟩, ⟨"bbbb", [], "running"⟩]
      ∧ (main exitedThenNamelessWorld).status = .panicked
      ∧ (main exitedThenNamelessWorld).status.exitCode = some 2)
    ∧ (brokenPipeWorld.newClient = none
      ∧ brokenPipeWorld.containerList { All := true }
          = .ok [⟨"aaaa", ["/a"], "running"⟩, ⟨"bbbb", ["/b"], "running"⟩]
      ∧ (main brokenPipeWorld).status = .killed
      ∧ (main brokenPipeWorld).status.exitCode = some 141) := by
  refine ⟨⟨rfl, rfl, ?_, ?_⟩, ⟨rfl, rfl, ?_, ?_⟩⟩ <;> decide

/-- C4, amended: if listing the containers fails, `main` prints `Error listing containers`
and exits with status 1, with no container entry and no log fetch. Conversely `os.Exit`
is reached only when creating the client or listing the containers failed, and for a list
in which every running container has a name, when no write to standard output is killed
by `SIGPIPE`, these two failures are the only way the run ends with an error status:
every other run that ends has exit status 0. -/
theorem listing_failure_is_the_only_error_exit (w : World) :
    (∀ err, w.newClient = none → w.containerList { All := true } = .error err →
        main w = ⟨[.newClient, .containerList { All := true }, .stdout (.errListing err)],
          .exited 1⟩
        ∧ entries (main w).trace = [] ∧ fetches (main w).trace = []
        ∧ (main w).status.exitCode = some 1)
    ∧ (∀ code, (main w).status = .exited code →
        code = 1 ∧ ((∃ err, w.newClient = some err)
          ∨ (w.newClient = none ∧ ∃ err, w.containerList { All := true } = .error err)))
    ∧ (∀ cs code, w.newClient = none → w.containerList { All := true } = .ok cs →
        allNamed cs → w.noCopyKilled → (main w).status.exitCode = some code → code = 0) := by
  refine ⟨?_, ?_, ?_⟩
  · intro err hc hl
    rw [main_list_error w err hc hl]
    refine ⟨rfl, ?_, ?_, rfl⟩
    · simp [entries]
    · simp [fetches]
  · intro code hs
    cases hc : w.newClient with
    | some err =>
      rw [main_client_error w err hc] at hs
      simp only [Status.exited.injEq] at hs
      exact ⟨hs.symm, Or.inl ⟨err, rfl⟩⟩
    | none =>
      cases hl : w.containerList { All := true } with
      | error err =>
        rw [main_list_error w err hc hl] at hs
        simp only [Status.exited.injEq] at hs
        exact ⟨hs.symm, Or.inr ⟨rfl, err, rfl⟩⟩
      | ok cs =>
        rw [main_status_of_flow w cs hc hl] at hs
        cases hf : (loop w 0 cs).flow <;> simp [hf] at hs
  · intro cs code hc hl hn hk hs
    rw [main_status_of_flow w cs hc hl] at hs
    have hp := loop_flow_ne_panicked w cs hn 0
    have hq := loop_flow_ne_killed w cs hk 0
    cases hf : (loop w 0 cs).flow with
    | next =>
      simp [hf, Status.exitCode] at hs
      exact hs.symm
    | panicked => exact absurd hf hp
    | blocked => simp [hf, Status.exitCode] at hs
    | killed => exact absurd hf hq

/-- C4, amended, on two runs: the refused listing, and the sample list. -/
theorem listing_failure_is_the_only_error_exit_witness :
    (main listFailWorld = ⟨[.newClient, .containerList { All := true },
          .stdout (.errListing "daemon unreachable")], .exited 1⟩
      ∧ entries (main listFailWorld).trace = [] ∧ fetches (main listFailWorld).trace = []
      ∧ (main listFailWorld).status.exitCode = some 1)
    ∧ ((main listFailWorld).status = .exited 1
      ∧ ((∃ err, listFailWorld.newClient = some err)
        ∨ (listFailWorld.newClient = none
          ∧ ∃ err, listFailWorld.containerList { All := true } = .error err)))
    ∧ ((main sampleWorld).status.exitCode = some 0 ∧ (0 : Nat) = 0) :=
  ⟨(listing_failure_is_the_only_error_exit listFailWorld).1 "daemon unreachable" rfl rfl,
    ⟨by decide, ((listing_failure_is_the_only_error_exit listFailWorld).2.1 1 (by decide)).2⟩,
    ⟨by decide, (listing_failure_is_the_only_error_exit sampleWorld).2.2 sampleContainers 0
      rfl rfl sampleContainers_allNamed
      (noCopyKilled_of_copiesReturn sampleWorld sampleWorld_copiesReturn) (by decide)⟩⟩

/-- C7: when the list holds no running container (it is empty, or every container has
another state), `main` prints no container entry, attempts no log fetch, and returns with
exit status 0; the output is `No containers found` for the empty list and the header, the
count and the closing line otherwise. -/
theorem no_running_container_no_report (w : World) (cs : List Container)
    (hc : w.newClient = none) (hl : w.containerList { All := true } = .ok cs)
    (h : ∀ c ∈ cs, c.State ≠ "running") :
    entries (main w).trace = [] ∧ fetches (main w).trace = []
    ∧ (main w).status = .returned ∧ (main w).status.exitCode = some 0
    ∧ (main w).trace =
        if cs = [] then
          [.newClient, .containerList { All := true }, .stdout .noContainers, .cliClose]
        else
          [.newClient, .containerList { All := true }, .stdout .header,
            .stdout (.found cs.length), .stdout .completed, .cliClose] := by
  have hloop := loop_none_running w cs h 0
  have hf : (loop w 0 cs).flow = .next := by rw [hloop]
  have hs := main_status_returned w cs hc hl hf
  refine ⟨?_, ?_, hs, by rw [hs]; rfl, ?_⟩
  · rw [entries_main w cs hc hl, hloop]; rfl
  · rw [fetches_main w cs hc hl, hloop]; rfl
  · by_cases hne : cs = []
    · subst hne
      rw [main_empty w hc hl]; simp
    · rw [main_next w cs hc hl hne hf, hloop]
      simp [hne]

/-- C7 on a list of an exited and a paused container. -/
theorem no_running_container_no_report_witness :
    entries (main idleWorld).trace = [] ∧ fetches (main idleWorld).trace = []
    ∧ (main idleWorld).status = .returned ∧ (main idleWorld).status.exitCode = some 0
    ∧ (main idleWorld).trace =
        [.newClient, .containerList { All := true }, .stdout .header,
          .stdout (.found 2), .stdout .completed, .cliClose] :=
  no_running_container_no_report idleWorld
    [⟨"aaaa", ["/a"], "exited"⟩, ⟨"bbbb", ["/b"], "paused"⟩] rfl rfl (by decide)

/-- C9: every `cli.ContainerLogs` call of every run is made with the same options (standard
output and standard error, time stamps, `Tail = "10"`) and with the full identifier of a
listed running container; the calls follow the running containers in list order. -/
theorem fetch_options_are_fixed (w : World) (id : String) (opts : ContainerLogsOptions)
    (h : (id, opts) ∈ fetches (main w).trace) :
    opts = { ShowStdout := true, ShowStderr := true, Timestamps := true, Tail := "10" }
    ∧ ∃ cs, w.containerList { All := true } = .ok cs
      ∧ (∃ c ∈ cs, c.State = "running" ∧ id = c.ID)
      ∧ ∃ rest, fetches (main w).trace ++ rest
          = (cs.filter (fun c => c.State == "running")).map (fun c => (c.ID,
              { ShowStdout := true, ShowStderr := true, Timestamps := true, Tail := "10" })) := by
  cases hc : w.newClient with
  | some err =>
    rw [main_client_error w err hc] at h
    simp [fetches] at h
  | none =>
    cases hl : w.containerList { All := true } with
    | error err =>
      rw [main_list_error w err hc hl] at h
      simp [fetches] at h
    | ok cs =>
      obtain ⟨rest, hrest⟩ := fetches_loop_initial w cs 0
      rw [← fetches_main w cs hc hl] at hrest
      have hm : (id, opts) ∈ (running cs).map (fun c => (c.ID, options)) := by
        rw [← hrest]
        exact List.mem_append_left rest h
      obtain ⟨c, hcm, hce⟩ := List.mem_map.mp hm
      have hmem : c ∈ cs ∧ isRunning c = true := by
        simpa [running] using hcm
      have hid : c.ID = id := congrArg Prod.fst hce
      have hop : options = opts := congrArg Prod.snd hce
      refine ⟨by rw [← hop]; rfl, cs, rfl, ⟨c, hmem.1, (isRunning_iff c).mp hmem.2, hid.symm⟩,
        rest, ?_⟩
      rw [hrest]
      rfl

/-- C9 on the sample list: the first container is fetched by its full identifier of 20
characters, while its entry shows the first 12. -/
theorem fetch_options_are_fixed_witness :
    entries (main sampleWorld).trace = [("/web", "0123456789ab"), ("/cache", "2222")]
    ∧ (options = { ShowStdout := true, ShowStderr := true, Timestamps := true, Tail := "10" }
      ∧ ∃ cs, sampleWorld.containerList { All := true } = .ok cs
        ∧ (∃ c ∈ cs, c.State = "running" ∧ "0123456789abcdef0123" = c.ID)
        ∧ ∃ rest, fetches (main sampleWorld).trace ++ rest
            = (cs.filter (fun c => c.State == "running")).map (fun c => (c.ID,
                { ShowStdout := true, ShowStderr := true, Timestamps := true,
                  Tail := "10" }))) :=
  ⟨by decide, fetch_options_are_fixed sampleWorld "0123456789abcdef0123" options (by decide)⟩

/-! ## Stream handles -/

theorem handles_body (w : World) (k : Nat) (c : Container) (hr : w.copiesReturn) :
    (handleEvents (body w k c).events = [] ∧ openedHandles (body w k c).events = [])
    ∨ (handleEvents (body w k c).events = [.opened k, .closed k]
      ∧ openedHandles (body w k c).events = [k]) := by
  cases body_cases w k c with
  | skipped h hb => left; simp [hb, handleEvents, openedHandles]
  | nameless h hn hb => left; simp [hb, handleEvents, openedHandles]
  | openError name rest err h hn ho hb => left; simp [hb, handleEvents, openedHandles]
  | never name rest logs written h hn ho hc hb =>
    exact absurd hc (copy_ne_never w hr k c.ID options logs written ho)
  | killed name rest logs written h hn ho hc hb =>
    exact absurd hc (copy_ne_killed w hr k c.ID options logs written ho)
  | returns name rest logs written err elapsed h hn ho hc hb =>
    right
    rw [hb]
    simp only [handleEvents_append, handleEvents_reportCopy, handleEvents_selectDone,
      openedHandles_append, openedHandles_reportCopy, openedHandles_selectDone]
    simp [handleEvents, openedHandles]

theorem handles_loop (w : World) (cs : List Container) (hr : w.copiesReturn) :
    ∀ k, handleEvents (loop w k cs).events
        = (openedHandles (loop w k cs).events).flatMap (fun h => [.opened h, .closed h])
      ∧ (∀ h ∈ openedHandles (loop w k cs).events, k ≤ h)
      ∧ (openedHandles (loop w k cs).events).Pairwise (fun a b => a < b) := by
  induction cs with
  | nil => intro k; simp [loop, handleEvents, openedHandles]
  | cons c rest ih =>
    intro k
    have hb := handles_body w k c hr
    by_cases hf : (body w k c).flow = .next
    · obtain ⟨i1, i2, i3⟩ := ih (k + 1)
      rw [loop_cons_next w k c rest hf]
      simp only [handleEvents_append, openedHandles_append, List.flatMap_append]
      rcases hb with ⟨h1, h2⟩ | ⟨h1, h2⟩
      · rw [h1, h2]
        refine ⟨by simpa using i1, ?_, by simpa using i3⟩
        intro h hh
        have := i2 h (by simpa using hh)
        omega
      · rw [h1, h2]
        refine ⟨by simp [i1], ?_, ?_⟩
        · intro h hh
          simp only [List.singleton_append, List.mem_cons] at hh
          rcases hh with rfl | hh
          · exact Nat.le_refl _
          · have := i2 h hh
            omega
        · simp only [List.singleton_append, List.pairwise_cons]
          refine ⟨fun b hb2 => ?_, i3⟩
          have := i2 b hb2
          omega
    · rw [loop_cons_stop w k c rest hf]
      rcases hb with ⟨h1, h2⟩ | ⟨h1, h2⟩
      · rw [h1, h2]; simp
      · rw [h1, h2]; simp

theorem count_closed_pairs (l : List Nat) (hl : l.Pairwise (fun a b => a < b)) (h : Nat) :
    (l.flatMap (fun h => [HandleEvent.opened h, .closed h])).count (.closed h)
      = if h ∈ l then 1 else 0 := by
  induction l with
  | nil => simp
  | cons a rest ih =>
    rw [List.pairwise_cons] at hl
    have ih2 := ih hl.2
    simp only [List.flatMap_cons, List.count_append, ih2]
    by_cases hah : a = h
    · subst hah
      have hnot : a ∉ rest := fun hm => Nat.lt_irrefl a (hl.1 a hm)
      simp [hnot, List.count_cons]
    · have hha : ¬ h = a := fun e => hah e.symm
      simp [hah, hha, List.count_cons]

/-- When every copy returns (with or without an error, before or after the deadline) each
stream handle obtained from `cli.ContainerLogs` is closed exactly once, right after it
was opened and before the next stream is opened: the handle events of the run are
`opened h, closed h` for each opened handle in turn, the opened handles are pairwise
different, and `Close` is called on nothing else (a failed open yields no handle and no
`Close`). -/
theorem streams_closed_once_of_copies_return (w : World) (hr : w.copiesReturn) :
    handleEvents (main w).trace
        = (openedHandles (main w).trace).flatMap (fun h => [.opened h, .closed h])
    ∧ (openedHandles (main w).trace).Pairwise (fun a b => a < b)
    ∧ ∀ h, (handleEvents (main w).trace).count (.closed h)
        = if h ∈ openedHandles (main w).trace then 1 else 0 := by
  have key : handleEvents (main w).trace
        = (openedHandles (main w).trace).flatMap (fun h => [.opened h, .closed h])
      ∧ (openedHandles (main w).trace).Pairwise (fun a b => a < b) := by
    cases hc : w.newClient with
    | some err =>
      rw [main_client_error w err hc]
      simp [handleEvents, openedHandles]
    | none =>
      cases hl : w.containerList { All := true } with
      | error err =>
        rw [main_list_error w err hc hl]
        simp [handleEvents, openedHandles]
      | ok cs =>
        rw [handleEvents_main w cs hc hl, openedHandles_main w cs hc hl]
        exact ⟨(handles_loop w cs hr 0).1, (handles_loop w cs hr 0).2.2⟩
  refine ⟨key.1, key.2, fun h => ?_⟩
  rw [key.1]
  exact count_closed_pairs _ key.2 h

/-- C6, on the code: the log stream of the one running container delivers a line and then
stalls. `cli.ContainerLogs` returned a handle, the run hangs in `io.Copy` (line 73) and
never reaches `logs.Close()` (line 77): the handle is opened once and closed zero times. -/
theorem stalled_stream_is_never_closed :
    main stalledAfterOutputWorld = ⟨[.newClient, .containerList { All := true },
        .stdout .header, .stdout (.found 1), .stdout (.banner "/a" "aaaa"),
        .containerLogs "aaaa" options (some 0), .stdout .recentLogs, .copy 0 "line\n"],
        .blocked⟩
    ∧ openedHandles (main stalledAfterOutputWorld).trace = [0]
    ∧ handleEvents (main stalledAfterOutputWorld).trace = [.opened 0]
    ∧ (handleEvents (main stalledAfterOutputWorld).trace).count (.closed 0) = 0
    ∧ Event.close 0 ∉ (main stalledAfterOutputWorld).trace := by
  refine ⟨?_, ?_, ?_, ?_, ?_⟩ <;> decide

/-! ## Messages of one fetch -/

theorem messages_reportCopy (err : Option CopyError) :
    messages (reportCopy err) = match err with
      | none => []
      | some e => [.errReading e.text] := by
  cases err <;> simp [reportCopy, messages]

theorem messages_selectDone (elapsed : Nat) :
    messages (selectDone elapsed) = if logTimeout ≤ elapsed then [.timeout] else [] := by
  unfold selectDone logCtxErr
  split_ifs <;> simp [messages]

theorem messages_body_returns (w : World) (k : Nat) (c : Container) (name : String)
    (rest : List String) (logs : LogStream) (written : String) (err : Option CopyError)
    (elapsed : Nat) (h : isRunning c = true)
    (hn : c.Names = name :: rest) (ho : w.containerLogs k c.ID options = .ok logs)
    (hc : logs.copy = .returns written err elapsed) :
    messages (body w k c).events = [.banner name (truncate 12 c.ID), .recentLogs]
      ++ (match err with
        | none => []
        | some e => [.errReading e.text])
      ++ [.separator] ++ (if logTimeout ≤ elapsed then [.timeout] else []) := by
  rw [body_returns w k c name rest logs written err elapsed h hn ho hc]
  simp only [messages_append, messages_reportCopy, messages_selectDone]
  simp [messages]

/-- C5, as stated, fails: a copy that returns an error after the deadline makes `main`
print both the failure line and the time-out line for the same container. -/
theorem late_error_prints_failure_and_timeout :
    messages (main lateErrorWorld).trace
      = [.header, .found 1, .banner "/a" "aaaa", .recentLogs, .errReading "unexpected EOF",
          .separator, .timeout, .completed]
    ∧ Msg.errReading "unexpected EOF" ∈ messages (main lateErrorWorld).trace
    ∧ Msg.timeout ∈ messages (main lateErrorWorld).trace := by
  refine ⟨?_, ?_, ?_⟩ <;> decide

/-- C5, amended: for every container, every result of the open call, every result of the
copy and every elapsed time, one loop iteration prints at most one failure line and at
most one time-out line; `Error fetching logs` is never printed together with the time-out
line or with `Error reading logs`; and `Error reading logs` and the time-out line are
both printed exactly when the stream was opened, the copy returned an error, and 2
seconds had passed when it returned. -/
theorem failure_and_timeout_messages (w : World) (k : Nat) (c : Container) :
    ((messages (body w k c).events).filter Msg.isFailure).length ≤ 1
    ∧ (messages (body w k c).events).count .timeout ≤ 1
    ∧ (∀ id err, Msg.errFetching id err ∈ messages (body w k c).events →
        Msg.timeout ∉ messages (body w k c).events
        ∧ ∀ e, Msg.errReading e ∉ messages (body w k c).events)
    ∧ (((∃ e, Msg.errReading e ∈ messages (body w k c).events)
          ∧ Msg.timeout ∈ messages (body w k c).events)
        ↔ ∃ logs written ce elapsed, c.State = "running" ∧ c.Names ≠ []
            ∧ w.containerLogs k c.ID options = .ok logs
            ∧ logs.copy = .returns written (some ce) elapsed ∧ 2 * second ≤ elapsed) := by
  cases body_cases w k c with
  | skipped h hb =>
    have hs : ¬ c.State = "running" := by
      intro hh
      rw [(isRunning_iff c).mpr hh] at h
      cases h
    simp [hb, messages, hs]
  | nameless h hn hb => simp [hb, messages, hn]
  | openError name rest err h hn ho hb => simp [hb, messages, ho, Msg.isFailure]
  | never name rest logs written h hn ho hc hb =>
    simp only [hb, ho]
    simp [messages, Msg.isFailure, hc]
  | killed name rest logs written h hn ho hc hb =>
    simp only [hb, ho]
    simp [messages, Msg.isFailure, hc]
  | returns name rest logs written err elapsed h hn ho hc hb =>
    have hs := (isRunning_iff c).mp h
    rw [messages_body_returns w k c name rest logs written err elapsed h hn ho hc]
    cases err with
    | none =>
      by_cases ht : logTimeout ≤ elapsed
      · simp [ht, Msg.isFailure, ho, hc, List.count_cons]
      · have ht2 : ¬ 2 * second ≤ elapsed := ht
        simp [ht, Msg.isFailure, ho, hc, List.count_cons]
    | some ce =>
      by_cases ht : logTimeout ≤ elapsed
      · have ht2 : 2 * second ≤ elapsed := ht
        simp [ht, Msg.isFailure, ho, hc, hs, hn, List.count_cons]
        exact ⟨written, ce, elapsed, ⟨rfl, rfl, rfl⟩, ht2⟩
      · have ht2 : ¬ 2 * second ≤ elapsed := ht
        simp [ht, Msg.isFailure, ho, hc, List.count_cons]
        intro _ _
        omega

/-- C5, amended, on the late read error: both lines are printed, and only one failure line. -/
theorem failure_and_timeout_messages_witness :
    ((messages (body lateErrorWorld 0 ⟨"aaaa", ["/a"], "running"⟩).events).filter
        Msg.isFailure).length ≤ 1
    ∧ ((∃ e, Msg.errReading e
          ∈ messages (body lateErrorWorld 0 ⟨"aaaa", ["/a"], "running"⟩).events)
      ∧ Msg.timeout ∈ messages (body lateErrorWorld 0 ⟨"aaaa", ["/a"], "running"⟩).events) :=
  ⟨(failure_and_timeout_messages lateErrorWorld 0 ⟨"aaaa", ["/a"], "running"⟩).1,
    (failure_and_timeout_messages lateErrorWorld 0 ⟨"aaaa", ["/a"], "running"⟩).2.2.2.mpr
      ⟨⟨.returns "partial\n" (some (.read "unexpected EOF")) 3000000000⟩, "partial\n",
        .read "unexpected EOF", 3000000000, rfl, by decide, rfl, rfl, by decide⟩⟩

/-- C8, as stated, fails: an error reading from the log stream (`unexpected EOF`) and an
error writing to standard output (`no space left on device`) are two of the three failure
kinds, yet both are reported by the print statement of line 75, with the format
`Error reading logs: %v`: the failure of the sink is reported as an error reading the
logs. -/
theorem read_and_write_errors_are_reported_alike :
    messages (main (copyErrorWorld (.read "unexpected EOF"))).trace
      = [.header, .found 1, .banner "/a" "aaaa", .recentLogs, .errReading "unexpected EOF",
          .separator, .completed]
    ∧ messages (main (copyErrorWorld (.write "no space left on device"))).trace
      = [.header, .found 1, .banner "/a" "aaaa", .recentLogs,
          .errReading "write /dev/stdout: no space left on device", .separator, .completed]
    ∧ (Msg.errReading "unexpected EOF").format
      = (Msg.errReading "write /dev/stdout: no space left on device").format
    ∧ (Msg.errReading "unexpected EOF").render = "Error reading logs: unexpected EOF\n"
    ∧ (Msg.errReading "write /dev/stdout: no space left on device").render
      = "Error reading logs: write /dev/stdout: no space left on device\n" := by
  refine ⟨?_, ?_, ?_, ?_, ?_⟩ <;> decide

/-- C8, amended: when a fetch fails, the report tells an error opening the source (the line
`Error fetching logs for container <id>: <err>`) from an error during the copy (the line
`Error reading logs: <err>`): the two lines have different formats and never the same
text. An error reading from the source and an error writing to the sink are both
reported by the line `Error reading logs: <err>`; for the sink `<err>` is the text of the
failed write, `write /dev/stdout: <reason>`. -/
theorem failure_report_kinds (w : World) (k : Nat) (c : Container) (name : String)
    (rest : List String) (h : c.State = "running") (hn : c.Names = name :: rest) :
    (∀ err, w.containerLogs k c.ID options = .error err →
        messages (body w k c).events
          = [.banner name (truncate 12 c.ID), .errFetching c.ID err])
    ∧ (∀ logs written ce elapsed, w.containerLogs k c.ID options = .ok logs →
        logs.copy = .returns written (some ce) elapsed →
        messages (body w k c).events
          = [.banner name (truncate 12 c.ID), .recentLogs, .errReading ce.text, .separator]
            ++ (if 2 * second ≤ elapsed then [.timeout] else []))
    ∧ (∀ id e e2, (Msg.errFetching id e).render ≠ (Msg.errReading e2).render
        ∧ (Msg.errFetching id e).format ≠ (Msg.errReading e2).format)
    ∧ (∀ text, (Msg.errReading (CopyError.read text).text).render
          = "Error reading logs: " ++ text ++ "\n")
    ∧ (∀ reason, (Msg.errReading (CopyError.write reason).text).render
          = "Error reading logs: " ++ ("write /dev/stdout: " ++ reason) ++ "\n")
    ∧ (∀ ce : CopyError, (Msg.errReading ce.text).format = "Error reading logs: %v\n") := by
  have hrun := (isRunning_iff c).mpr h
  refine ⟨?_, ?_, ?_, ?_, ?_, ?_⟩
  · intro err ho
    rw [body_open_error w k c name rest err hrun hn ho]
    simp [messages]
  · intro logs written ce elapsed ho hc
    rw [messages_body_returns w k c name rest logs written (some ce) elapsed hrun hn ho hc]
    simp [logTimeout]
  · intro id e e2
    refine ⟨?_, by simp only [Msg.format]; decide⟩
    intro heq
    have h6 := congrArg (fun s => s.data.get? 6) heq
    simp [Msg.render, String.data_append] at h6
  · intro text
    rfl
  · intro reason
    rfl
  · intro ce
    rfl

/-- C8, amended, on a running container whose copy fails on a write. -/
theorem failure_report_kinds_witness :
    messages (body (copyErrorWorld (.write "no space left on device")) 0
        ⟨"aaaa", ["/a"], "running"⟩).events
      = [.banner "/a" (truncate 12 "aaaa"), .recentLogs,
          .errReading (CopyError.write "no space left on device").text, .separator]
        ++ (if 2 * second ≤ 0 then [.timeout] else []) :=
  (failure_report_kinds (copyErrorWorld (.write "no space left on device")) 0
    ⟨"aaaa", ["/a"], "running"⟩ "/a" [] rfl rfl).2.1
    ⟨.returns "" (some (.write "no space left on device")) 0⟩ ""
    (.write "no space left on device") 0 rfl rfl

/-! ## The banner and the index into `Names` -/

theorem truncate_length (n : Nat) (s : String) : (truncate n s).length ≤ n := by
  show (s.data.take n).length ≤ n
  rw [List.length_take]
  exact Nat.min_le_left _ _

theorem truncate_append (n : Nat) (s : String) : truncate n s ++ ⟨s.data.drop n⟩ = s := by
  apply String.ext
  simp [truncate, String.data_append]

theorem truncate_short (n : Nat) (s : String) (h : s.length ≤ n) : truncate n s = s := by
  apply String.ext
  simp only [truncate]
  exact List.take_of_length_le h

/-- C10: the banner of a running container is its first name and the first 12 characters
of its identifier (the whole identifier when it is no longer than that). For a list in
which every running container has a name the run does not panic. For a running container
without a name, the run never fetches that container or a later one and does not return
from `main`; when the containers before it have names and their copies return, the run
panics there, after fetching exactly the running containers before it. -/
theorem banner_indexes_first_name (w : World) (cs : List Container)
    (hc : w.newClient = none) (hl : w.containerList { All := true } = .ok cs) :
    (∀ k c name rest, c.State = "running" → c.Names = name :: rest →
        entries (body w k c).events = [(name, truncate 12 c.ID)]
        ∧ (truncate 12 c.ID).length ≤ 12
        ∧ (∃ tail, truncate 12 c.ID ++ tail = c.ID)
        ∧ (c.ID.length ≤ 12 → truncate 12 c.ID = c.ID))
    ∧ (allNamed cs → (main w).status ≠ .panicked)
    ∧ (∀ pre c post, cs = pre ++ c :: post → c.State = "running" → c.Names = [] →
        (∃ unfetched, fetches (main w).trace ++ unfetched
            = (pre.filter (fun c => c.State == "running")).map (fun c => (c.ID, options)))
        ∧ (main w).status ≠ .returned
        ∧ (allNamed pre → w.copiesReturn →
            (main w).status = .panicked
            ∧ fetches (main w).trace
              = (pre.filter (fun c => c.State == "running")).map (fun c => (c.ID, options))
            ∧ (entries (main w).trace).map (fun e => (some e.1, e.2))
              = (pre.filter (fun c => c.State == "running")).map
                  (fun c => (c.Names.head?, truncate 12 c.ID)))) := by
  refine ⟨?_, ?_, ?_⟩
  · intro k c name rest hs hn
    have hrun := (isRunning_iff c).mpr hs
    refine ⟨?_, truncate_length 12 c.ID, ⟨_, truncate_append 12 c.ID⟩, truncate_short 12 c.ID⟩
    rw [entries_body]
    simp [hrun, hn]
  · intro hn
    rw [main_status_of_flow w cs hc hl]
    have := loop_flow_ne_panicked w cs hn 0
    cases hf : (loop w 0 cs).flow with
    | next => simp
    | panicked => exact absurd hf this
    | blocked => simp
    | killed => simp
  · intro pre c post hcs hs hn
    have hrun := (isRunning_iff c).mpr hs
    have hbody := body_nameless w (0 + pre.length) c hrun hn
    have hstop : loop w (0 + pre.length) (c :: post) = ⟨[], [], .panicked⟩ := by
      rw [loop_cons_stop w _ c post (by rw [hbody]; simp), hbody]
    rw [main_status_of_flow w cs hc hl, fetches_main w cs hc hl, entries_main w cs hc hl, hcs]
    by_cases hf : (loop w 0 pre).flow = .next
    · rw [loop_append_next w pre (c :: post) 0 hf, hstop]
      simp only [List.append_nil]
      have hfe := fetches_loop_next w pre 0 hf
      have hen := entries_loop_next w pre 0 hf
      rw [running_eq] at hfe hen
      refine ⟨⟨[], by rw [hfe]; simp⟩, by simp, fun _ _ => ⟨by simp, hfe, hen⟩⟩
    · rw [loop_append_stop w pre (c :: post) 0 hf]
      obtain ⟨unfetched, hu⟩ := fetches_loop_initial w pre 0
      rw [running_eq] at hu
      refine ⟨⟨unfetched, hu⟩, ?_, ?_⟩
      · cases hf2 : (loop w 0 pre).flow with
        | next => exact absurd hf2 hf
        | panicked => simp
        | blocked => simp
        | killed => simp
      · intro hnamed hret
        exact absurd (loop_flow_next w pre hnamed hret 0) hf

theorem namelessMiddleWorld_copiesReturn : namelessMiddleWorld.copiesReturn := by
  intro k id opts logs h
  simp only [namelessMiddleWorld] at h
  cases h
  exact ⟨_, _, _, rfl⟩

/-- C10 on two lists: the sample list, whose running containers have names, and a list
whose second running container has none. -/
theorem banner_indexes_first_name_witness :
    (main sampleWorld).status ≠ .panicked
    ∧ ((main namelessMiddleWorld).status = .panicked
      ∧ fetches (main namelessMiddleWorld).trace
        = (List.filter (fun c => c.State == "running")
            [(⟨"aaaa", ["/a"], "running"⟩ : Container)]).map (fun c => (c.ID, options))
      ∧ (entries (main namelessMiddleWorld).trace).map (fun e => (some e.1, e.2))
        = (List.filter (fun c => c.State == "running")
            [(⟨"aaaa", ["/a"], "running"⟩ : Container)]).map
              (fun c => (c.Names.head?, truncate 12 c.ID))) :=
  ⟨(banner_indexes_first_name sampleWorld sampleContainers rfl rfl).2.1
      sampleContainers_allNamed,
    ((banner_indexes_first_name namelessMiddleWorld
        [⟨"aaaa", ["/a"], "running"⟩, ⟨"bbbb", [], "running"⟩, ⟨"cccc", ["/c"], "running"⟩]
        rfl rfl).2.2 [⟨"aaaa", ["/a"], "running"⟩] ⟨"bbbb", [], "running"⟩
        [⟨"cccc", ["/c"], "running"⟩] rfl rfl rfl).2.2
      (by intro c hc _; simp at hc; subst hc; simp)
      namelessMiddleWorld_copiesReturn⟩

end Woki
